import Mathlib

/-!
Verification development for the DTM2020 workflow pipeline
(`src/api/apis.py`, endpoint `run_workflow`).

Dates are embedded as integers counting civil days since 1970-01-01
(the shallow embedding of Python `datetime` values at midnight together
with `timedelta` day arithmetic).  The civil-calendar conversions follow
the standard Gregorian `days_from_civil` / `civil_from_days` algorithms,
which is what `datetime` computes.
-/

set_option maxRecDepth 10000

namespace DTM

/-- Gregorian leap-year predicate, as used by `datetime`. -/
def isLeap (y : ℤ) : Bool :=
  (y % 4 == 0 && y % 100 != 0) || y % 400 == 0

/-- Number of days in month `m` (1..12) of year `y`. -/
def daysInMonth (y m : ℤ) : ℤ :=
  if m = 1 then 31
  else if m = 2 then (if isLeap y then 29 else 28)
  else if m = 3 then 31
  else if m = 4 then 30
  else if m = 5 then 31
  else if m = 6 then 30
  else if m = 7 then 31
  else if m = 8 then 31
  else if m = 9 then 30
  else if m = 10 then 31
  else if m = 11 then 30
  else 31

/-- Civil day count of `y-m-d` since 1970-01-01 (the value of
`(datetime(y,m,d) - datetime(1970,1,1)).days`). -/
def daysFromCivil (y m d : ℤ) : ℤ :=
  let y' := y - (if m ≤ 2 then 1 else 0)
  let era := Int.fdiv y' 400
  let yoe := y' - era * 400
  let doy := Int.fdiv (153 * (m + (if m > 2 then (-3) else 9)) + 2) 5 + d - 1
  let doe := yoe * 365 + Int.fdiv yoe 4 - Int.fdiv yoe 100 + doy
  era * 146097 + doe - 719468

/-- Calendar year of a civil day count (the `year` attribute of the
corresponding `datetime`). -/
def yearOfDays (z : ℤ) : ℤ :=
  let z' := z + 719468
  let era := Int.fdiv z' 146097
  let doe := z' - era * 146097
  let yoe := Int.fdiv (doe - Int.fdiv doe 1460 + Int.fdiv doe 36524 - Int.fdiv doe 146096) 365
  let y := yoe + era * 400
  let doy := doe - (365 * yoe + Int.fdiv yoe 4 - Int.fdiv yoe 100)
  let mp := Int.fdiv (5 * doy + 2) 153
  let m := mp + (if mp < 10 then 3 else (-9))
  if m ≤ 2 then y + 1 else y

/-- 1-based day-of-year of a civil day count: the code computes
`(dt - datetime(dt.year, 1, 1)).days + 1`. -/
def dayOfYear (z : ℤ) : ℤ :=
  z - daysFromCivil (yearOfDays z) 1 1 + 1

/-- `str.split(sep)` on character lists: the maximal-run split of a
string at a separator character, empty fields preserved. -/
def splitL (c : Char) : List Char → List (List Char)
  | [] => [[]]
  | a :: as =>
    if a = c then [] :: splitL c as
    else
      match splitL c as with
      | t :: ts => (a :: t) :: ts
      | [] => [[a]]

/-- Digits of a field to its numeric value. -/
def digitsVal (l : List Char) : ℤ :=
  l.foldl (fun a c => 10 * a + ((c.toNat : ℤ) - 48)) 0

/-- One `strptime`-style numeric field: non-empty, all digits,
with a length constraint. -/
def digitField (lo hi : ℕ) (l : List Char) : Bool :=
  lo ≤ l.length && l.length ≤ hi && l.all Char.isDigit

/-- Shallow embedding of `datetime.strptime(date, '%Y-%m-%d')`:
`%Y` matches exactly four digits, `%m` and `%d` one or two digits with
range checks, and the resulting triple must be a valid (proleptic
Gregorian, year ≥ 1) calendar date.  Returns the `(y, m, d)` triple. -/
def parseDate (s : String) : Option (ℤ × ℤ × ℤ) :=
  match splitL '-' s.data with
  | [ys, ms, ds] =>
    if digitField 4 4 ys && digitField 1 2 ms && digitField 1 2 ds then
      let y := digitsVal ys
      let m := digitsVal ms
      let d := digitsVal ds
      if 1 ≤ y && 1 ≤ m && m ≤ 12 && 1 ≤ d && d ≤ daysInMonth y m then
        some (y, m, d)
      else none
    else none
  | _ => none

/-- The fixed 28-entry `AP_TO_KP` mapping table from the source,
in its (ascending-key) iteration order. -/
def AP_TO_KP : List (ℤ × ℚ) :=
  [(0, 0), (2, 0.33), (3, 0.66), (4, 1), (5, 1.33), (6, 1.66), (7, 2),
   (9, 2.33), (12, 2.66), (15, 3), (18, 3.33), (22, 3.66), (27, 4),
   (32, 4.33), (39, 4.66), (48, 5), (56, 5.33), (67, 5.66), (80, 6),
   (94, 6.33), (111, 6.66), (132, 7), (154, 7.33), (179, 7.66),
   (207, 8), (236, 8.33), (300, 8.66), (400, 9)]

/-- Python's `min(keys, key=lambda x: abs(x - ap))`: the first element
of the list attaining the minimal absolute difference. -/
def minAbsKey (ap : ℤ) : List ℤ → ℤ → ℤ
  | [], best => best
  | k :: ks, best => minAbsKey ap ks (if (k - ap).natAbs < (best - ap).natAbs then k else best)

/-- `AP_TO_KP[min(AP_TO_KP.keys(), key=lambda x: abs(x - ap))]`:
nearest-key lookup in the Ap→Kp table, ties to the earlier
(lower) key in iteration order. -/
def nearestKp (ap : ℤ) : ℚ :=
  let key := minAbsKey ap (AP_TO_KP.map Prod.fst).tail ((AP_TO_KP.map Prod.fst).headD 0)
  ((AP_TO_KP.filter (fun p => p.1 = key)).headD (0, 0)).2

/-- One daily row of the historical indices table, as parsed by the
`pd.read_csv` call (columns relevant to the workflow).  `F107obs` is
`none` when the observation is NaN. -/
structure IndexRecord where
  date : ℤ
  Kp1 : ℚ
  Kp2 : ℚ
  Kp3 : ℚ
  Kp4 : ℚ
  Kp5 : ℚ
  Kp6 : ℚ
  Kp7 : ℚ
  Kp8 : ℚ
  Ap : ℤ
  F107obs : Option ℚ
  deriving Repr, DecidableEq

instance : Inhabited IndexRecord := ⟨⟨0, 0, 0, 0, 0, 0, 0, 0, 0, 0, none⟩⟩

/-- `df[pred]['F10.7obs']` restricted to present (non-NaN) values. -/
def fluxValues (ds : List IndexRecord) (p : ℤ → Bool) : List ℚ :=
  ds.filterMap (fun r => if p r.date then r.F107obs else none)

/-- pandas `Series.mean()` over the selected rows: NaN values are
omitted; the result is NaN (`none`) when no value remains. -/
def meanFlux (ds : List IndexRecord) (p : ℤ → Bool) : Option ℚ :=
  let vs := fluxValues ds p
  if vs.length = 0 then none else some (vs.sum / (vs.length : ℚ))

/-- `df[df['Date'] == z].values[0]`: the first row with the given
date, `none` when absent (in Python an uncaught `IndexError`). -/
def findRec (ds : List IndexRecord) (z : ℤ) : Option IndexRecord :=
  (ds.filter (fun r => r.date = z)).head?

/-- One entry of `output_json['runs']`: the per-day parameter template
for the DTM2020 model.  (The diagnostic `f107` series of raw window
observations is carried by the code for the manifest only and is not
part of the model parameters; it is omitted here.) -/
structure Run where
  day : ℤ
  fm : Option ℚ
  fl : Option ℚ
  alt : ℤ
  akp1 : List ℚ
  akp3 : ℚ
  ap : ℤ
  deriving Repr, DecidableEq

instance : Inhabited Run := ⟨⟨0, none, none, 0, [], 0, 0⟩⟩

/-- Lines 97–214 of `run_workflow`: derive the three per-day run
templates for request date `z` (civil day count) and `altitude`.
Fails (Python: uncaught `IndexError`, surfacing as a 500) when a
required daily record is missing. -/
def deriveRuns (ds : List IndexRecord) (z alt : ℤ) : Except String (List Run) := do
  let startD := z - 80
  let start1 := z - 79
  let endD := z + 1
  let end2 := z + 2
  let selectD := z
  let prevD := z - 1
  let dfW := ds.filter (fun r => startD ≤ r.date && r.date ≤ end2)
  let mean1 := meanFlux dfW (fun d => startD ≤ d && d ≤ selectD)
  let mean2 := meanFlux dfW (fun d => startD < d && d ≤ endD)
  let mean3 := meanFlux dfW (fun d => start1 < d && d ≤ end2)
  let some rPrev := findRec dfW prevD | .error "no record for previous day"
  let some rSel := findRec dfW selectD | .error "no record for selected day"
  let some rEnd := findRec dfW endD | .error "no record for end day"
  let some rEnd2 := findRec dfW end2 | .error "no record for end+2 day"
  let kp1 := nearestKp rPrev.Ap
  let kp2 := nearestKp rSel.Ap
  let kp3 := nearestKp rEnd.Ap
  let days1 := dayOfYear selectD
  let days2 := dayOfYear endD
  let days3 := dayOfYear end2
  let kps1 := [rPrev.Kp8, rSel.Kp1, rSel.Kp2, rSel.Kp3, rSel.Kp4, rSel.Kp5, rSel.Kp6, rSel.Kp7]
  let kps2 := [rSel.Kp8, rEnd.Kp1, rEnd.Kp2, rEnd.Kp3, rEnd.Kp4, rEnd.Kp5, rEnd.Kp6, rEnd.Kp7]
  let kps3 := [rEnd.Kp8, rEnd2.Kp1, rEnd2.Kp2, rEnd2.Kp3, rEnd2.Kp4, rEnd2.Kp5, rEnd2.Kp6, rEnd2.Kp7]
  pure
    [{ day := days1, fm := mean1, fl := rPrev.F107obs, alt := alt,
       akp1 := kps1, akp3 := kp1, ap := rPrev.Ap },
     { day := days2, fm := mean2, fl := rSel.F107obs, alt := alt,
       akp1 := kps2, akp3 := kp2, ap := rSel.Ap },
     { day := days3, fm := mean3, fl := rEnd.F107obs, alt := alt,
       akp1 := kps3, akp3 := kp3, ap := rEnd.Ap }]

/-- The per-run epoch keys of one day template, in dispatch order:
`"{day}_{hour}"` with `hour = 0, 3, …` (one per `akp1` element, the
inner loop of lines 218–233). -/
def keysOfRun (run : Run) : List String :=
  (List.range run.akp1.length).map (fun e => toString run.day ++ "_" ++ toString (3 * e))

/-- Pair each key with the execution id of the corresponding outbound
call, counting calls from `n`. -/
def dispatchGo (execId : ℕ → ℕ) (n : ℕ) : List String → List (String × ℕ)
  | [] => []
  | k :: ks => (k, execId n) :: dispatchGo execId (n + 1) ks

/-- Lines 216–233: dispatch one remote `/execute` call per `akp1`
element of every run (day order, then epoch order) and collect
`{new_execution_id: execution_id}` pairs in dispatch order; the `n`-th
outbound call returns execution id `execId n`. -/
def dispatchRuns (execId : ℕ → ℕ) (runs : List Run) : List (String × ℕ) :=
  dispatchGo execId 0 (runs.flatMap keysOfRun)

/-- Worker for Python `str.replace`: while `skip > 0` the characters
of an already-matched pattern occurrence are being consumed; at
`skip = 0` a new match of `p` is attempted, non-overlapping and left
to right.  The `p ≠ []` guard only shapes the (unused) empty-pattern
case. -/
def replaceGo (p r : List Char) : ℕ → List Char → List Char
  | _, [] => []
  | skip + 1, _ :: cs => replaceGo p r skip cs
  | 0, c :: cs =>
    if p ≠ [] ∧ p.isPrefixOf (c :: cs) then r ++ replaceGo p r (p.length - 1) cs
    else c :: replaceGo p r 0 cs

/-- Python `str.replace` on character lists (all occurrences, left to
right, non-overlapping). -/
def replaceL (p r inp : List Char) : List Char :=
  replaceGo p r 0 inp

/-- `filename.replace('DTM20F107Kp', key)`. -/
def pyReplace (s pat r : String) : String :=
  ⟨replaceL pat.data r.data s.data⟩

/-- The fixed quantity tags (`folder_metrics` of line 262). -/
def folderMetrics : List String := ["He", "N2", "O", "ro", "Tinf", "Tz"]

/-- Python's `str.endswith` on character lists. -/
def pyEndsWith (s sfx : String) : Bool :=
  sfx.data.isSuffixOf s.data

/-- Substring occurrence on character lists. -/
def containsL (needle : List Char) : List Char → Bool
  | [] => needle.isEmpty
  | c :: cs => needle.isPrefixOf (c :: cs) || containsL needle cs

/-- Python's `tag in filename` substring test. -/
def containsTag (filename tag : String) : Bool :=
  containsL tag.data filename.data

/-- Lines 273–279 for one extracted run directory: for each metric
(outer loop) and each directory entry (inner loop), the copy performed,
as `(source filename, destination subfolder, destination filename)`;
`.datx` files go to `datas_<metric>`, `.png` files to `plots_<metric>`,
renaming the `DTM20F107Kp` prefix to the run's key. -/
def copyActions (metrics : List String) (files : List String) (key : String) :
    List (String × String × String) :=
  metrics.flatMap fun m =>
    files.filterMap fun filename =>
      if containsTag filename m then
        if pyEndsWith filename ".datx" then
          some (filename, "datas_" ++ m, pyReplace filename "DTM20F107Kp" key)
        else if pyEndsWith filename ".png" then
          some (filename, "plots_" ++ m, pyReplace filename "DTM20F107Kp" key)
        else none
      else none

/-! ### Filesystem and workflow state -/

/-- A flat model of the relevant filesystem: file paths with contents,
plus a set (list) of directory paths.  `os.makedirs` is modelled as
creating the named directory entry (intermediate parents are not
tracked separately; no code path queries a parent that was only
implicitly created). -/
structure FS where
  files : List (String × String)
  dirs : List String
  deriving Repr, DecidableEq

/-- Content of the file at `p`, if present. -/
def FS.lookup (fs : FS) (p : String) : Option String :=
  ((fs.files.filter (fun e => e.1 = p)).head?).map Prod.snd

/-- Write (create or overwrite) the file at `p`. -/
def FS.write (fs : FS) (p v : String) : FS :=
  { fs with files := fs.files.filter (fun e => e.1 ≠ p) ++ [(p, v)] }

/-- Is `p` strictly below directory `dir`? -/
def underDir (dir p : String) : Bool :=
  (dir ++ "/").data.isPrefixOf p.data

/-- `os.path.exists`: a file or directory entry at `p`. -/
def FS.existsP (fs : FS) (p : String) : Bool :=
  (fs.lookup p).isSome || fs.dirs.contains p

/-- `os.makedirs(p, exist_ok=True)`. -/
def FS.mkdir (fs : FS) (p : String) : FS :=
  if fs.dirs.contains p then fs else { fs with dirs := fs.dirs ++ [p] }

/-- `rm -rf dir`: remove the directory entry and everything below it. -/
def FS.rmRf (fs : FS) (dir : String) : FS :=
  { files := fs.files.filter (fun e => ¬ (e.1 = dir || underDir dir e.1)),
    dirs := fs.dirs.filter (fun d => ¬ (d = dir || underDir dir d)) }

/-- `os.listdir dir`: names of the files directly inside `dir`. -/
def FS.listdir (fs : FS) (dir : String) : List String :=
  fs.files.filterMap fun e =>
    if underDir dir e.1 && ¬ (e.1.drop (dir.length + 1)).contains '/' then
      some (e.1.drop (dir.length + 1))
    else none

/-- The files below `dir`, with their contents. -/
def filesUnder (fs : FS) (dir : String) : List (String × String) :=
  fs.files.filter (fun e => underDir dir e.1)

/-- The environment a workflow invocation runs against: the clock, the
parsed historical dataset, and the remote model service (execution ids
in call order, result archives by execution id), plus the archive
utilities (`unzip` of stored bytes, `zip -r` of a directory's files). -/
structure Env where
  root : String
  now : ℚ
  dataset : List IndexRecord
  execId : ℕ → ℕ
  resultZip : ℕ → String
  unzip : String → List (String × String)
  zipDir : List (String × String) → String

/-- Mutable state threaded through an invocation: the filesystem and a
count of outbound remote calls (dataset fetch, `/execute`, `/results`). -/
structure St where
  fs : FS
  remoteCalls : ℕ

/-- The HTTP-level outcome: a file stream or an error response. -/
inductive Resp where
  | file : String → Resp
  | httpError : ℕ → String → Resp
  deriving Repr, DecidableEq

/-- `f"{script_dir}/output/{date}/{altitude}"`. -/
def outputFolder (root date : String) (alt : ℤ) : String :=
  root ++ "/output/" ++ date ++ "/" ++ toString alt

/-- Lines 71–80 plus the framework's `Query(ge=120, le=1500)` bound
check: reject malformed dates, dates outside `[1970-01-01, now − 3
days]`, and altitudes outside `[120, 1500]`, all before any pipeline
work.  `now` is the clock in (possibly fractional) days since
1970-01-01; a date parses to its civil day count `z`. -/
def validateRequest (now : ℚ) (date : String) (alt : ℤ) : Except (ℕ × String) ℤ :=
  if ¬ (120 ≤ alt ∧ alt ≤ 1500) then
    .error (422, "Input should be greater than or equal to 120 and less than or equal to 1500")
  else
    match parseDate date with
    | none => .error (400, "Invalid date format. Ensure the format is YYYY-MM-DD.")
    | some (y, m, d) =>
      let z := daysFromCivil y m d
      if (z : ℚ) > now - 3 ∨ (z : ℚ) < 0 then
        .error (400, "The date should be from 1970-01-01 to 3 days ago.")
      else .ok z

/-- Lines 87–94: if the final output folder exists, `rm -rf` it
(without recreating it here); otherwise create it. -/
def cleanupFinal (fs : FS) (finalF : String) : FS :=
  if fs.existsP finalF then fs.rmRf finalF else fs.mkdir finalF

/-- Lines 234–260 for one handle `(key, eid)`: ensure the output
folder, download the result archive unless `{key}.zip` is already
present (one remote call when downloading), and extract it into
`{key}/` unless that directory already exists. -/
def collectOne (env : Env) (outF : String) (st : St) (h : String × ℕ) : St :=
  let fs := st.fs.mkdir outF
  let zipPath := outF ++ "/" ++ h.1 ++ ".zip"
  let dl : FS × ℕ :=
    if fs.existsP zipPath then (fs, st.remoteCalls)
    else (fs.write zipPath (env.resultZip h.2), st.remoteCalls + 1)
  let keyDir := outF ++ "/" ++ h.1
  let fs2 :=
    if dl.1.existsP keyDir then dl.1
    else
      (env.unzip ((dl.1.lookup zipPath).getD "")).foldl
        (fun a e => a.write (keyDir ++ "/" ++ e.1) e.2) (dl.1.mkdir keyDir)
  { fs := fs2, remoteCalls := dl.2 }

/-- Lines 264–266: create the six `plots_`/`datas_` subfolders. -/
def mkMetricDirs (finalF : String) (fs : FS) : FS :=
  folderMetrics.foldl
    (fun a m => (a.mkdir (finalF ++ "/plots_" ++ m)).mkdir (finalF ++ "/datas_" ++ m)) fs

/-- Lines 268–279 for one run key: copy that run's extracted files
into the per-quantity folders. -/
def assembleOne (finalF outF : String) (fs : FS) (key : String) : FS :=
  (copyActions folderMetrics (fs.listdir (outF ++ "/" ++ key)) key).foldl
    (fun a act =>
      a.write (finalF ++ "/" ++ act.2.1 ++ "/" ++ act.2.2)
        ((a.lookup (outF ++ "/" ++ key ++ "/" ++ act.1)).getD ""))
    fs

/-- Abstract rendering of a rational in the manifest (Python prints the
underlying floats; the numeric formatting is abstracted, the quoting
and structure are what matters for the manifest claims). -/
def renderQ (q : ℚ) : String :=
  if q.den = 1 then toString q.num else toString q.num ++ "/" ++ toString q.den

/-- NaN prints as `nan` inside `str(dict)`. -/
def renderOptQ : Option ℚ → String
  | none => "nan"
  | some q => renderQ q

/-- Python `str` of a list of numbers. -/
def pyListQ (l : List ℚ) : String :=
  "[" ++ String.intercalate ", " (l.map renderQ) ++ "]"

/-- Python `str` of one run's dict: keys in insertion order,
single-quoted. -/
def pyRun (r : Run) : String :=
  "\x7b\x27day\x27: " ++ toString r.day ++ ", \x27fm\x27: " ++ renderOptQ r.fm ++
  ", \x27fl\x27: " ++ renderOptQ r.fl ++ ", \x27alt\x27: " ++ toString r.alt ++
  ", \x27akp1\x27: " ++ pyListQ r.akp1 ++ ", \x27akp3\x27: " ++ renderQ r.akp3 ++
  ", \x27ap\x27: " ++ toString r.ap ++ "\x7d"

/-- Line 282, `f.write(str(output_json))`: the bytes actually written
to `final/inputs_runs.json` — the Python `repr` of the dict, with
single-quoted strings. -/
def pyManifest (date : String) (alt : ℤ) (runs : List Run) : String :=
  "\x7b\x27date\x27: \x27" ++ date ++ "\x27, \x27altitude\x27: " ++ toString alt ++
  ", \x27runs\x27: [" ++ String.intercalate ", " (runs.map pyRun) ++ "]\x7d"

/-- Modelled from the spec: the same manifest as a JSON document
(double-quoted keys and strings, `null` for a missing number), i.e.
what a structured machine-parseable `inputs_runs.json` would contain.
Comparison definition for the manifest-format claim. -/
def jsonManifest (date : String) (alt : ℤ) (runs : List Run) : String :=
  let jq : Option ℚ → String := fun o => match o with | none => "null" | some q => renderQ q
  let jrun : Run → String := fun r =>
    "\x7b\x22day\x22: " ++ toString r.day ++ ", \x22fm\x22: " ++ jq r.fm ++
    ", \x22fl\x22: " ++ jq r.fl ++ ", \x22alt\x22: " ++ toString r.alt ++
    ", \x22akp1\x22: " ++ pyListQ r.akp1 ++ ", \x22akp3\x22: " ++ renderQ r.akp3 ++
    ", \x22ap\x22: " ++ toString r.ap ++ "\x7d"
  "\x7b\x22date\x22: \x22" ++ date ++ "\x22, \x22altitude\x22: " ++ toString alt ++
  ", \x22runs\x22: [" ++ String.intercalate ", " (runs.map jrun) ++ "]\x7d"

/-- The full `run_workflow` endpoint (lines 71–292): validation, the
final-archive cache check, final-folder cleanup, dataset fetch (one
remote call), parameter derivation, dispatch (one remote call per
run), collection, assembly, manifest write, and final zip. -/
def run_workflow (env : Env) (date : String) (alt : ℤ) (st : St) : St × Resp :=
  match validateRequest env.now date alt with
  | .error e => (st, .httpError e.1 e.2)
  | .ok z =>
    let outF := outputFolder env.root date alt
    let fz := outF ++ "/final_output.zip"
    match st.fs.lookup fz with
    | some cached => (st, .file cached)
    | none =>
      let finalF := outF ++ "/final"
      let st1 : St := { fs := cleanupFinal st.fs finalF, remoteCalls := st.remoteCalls + 1 }
      match deriveRuns env.dataset z alt with
      | .error e => (st1, .httpError 500 ("An error occurred while running the DTM2020 model: " ++ e))
      | .ok runs =>
        let handles := dispatchRuns env.execId runs
        let st2 : St := { st1 with remoteCalls := st1.remoteCalls + handles.length }
        let st3 := handles.foldl (collectOne env outF) st2
        let fs4 := mkMetricDirs finalF st3.fs
        let fs5 := handles.foldl (fun a h => assembleOne finalF outF a h.1) fs4
        let fs6 := fs5.write (finalF ++ "/inputs_runs.json") (pyManifest date alt runs)
        let zipBytes := env.zipDir (filesUnder fs6 finalF)
        ({ fs := fs6.write fz zipBytes, remoteCalls := st3.remoteCalls }, .file zipBytes)

/-! ### Theorems -/

/-- C3: the Ap-to-Kp nearest-index mapping is deterministic over the
fixed 28-entry table: an Ap value equal to a table key maps to exactly
that key's value; a value strictly between two adjacent keys maps to
the value of the key at smaller absolute difference; a value exactly
equidistant between two adjacent keys maps to the lower key's value. -/
theorem ap_to_kp_nearest_mapping :
    (∀ kv ∈ AP_TO_KP, nearestKp kv.1 = kv.2) ∧
    (∀ p ∈ AP_TO_KP.zip AP_TO_KP.tail, ∀ ap : ℤ,
      p.1.1 < ap → ap < p.2.1 →
        ((ap - p.1.1 < p.2.1 - ap → nearestKp ap = p.1.2) ∧
         (p.2.1 - ap < ap - p.1.1 → nearestKp ap = p.2.2) ∧
         (ap - p.1.1 = p.2.1 - ap → nearestKp ap = p.1.2))) := by
  constructor
  · with_unfolding_all decide
  · intro p hp ap h1 h2
    fin_cases hp <;> interval_cases ap <;> with_unfolding_all decide

/-- Inversion of a successful derivation: the four daily records were
found in the filtered window, and the runs list is exactly the
three-element list the code builds. -/
lemma deriveRuns_shape (ds : List IndexRecord) (z alt : ℤ) (runs : List Run)
    (h : deriveRuns ds z alt = .ok runs) :
    ∃ rp rs re re2,
      findRec (ds.filter (fun r => z - 80 ≤ r.date && r.date ≤ z + 2)) (z - 1) = some rp ∧
      findRec (ds.filter (fun r => z - 80 ≤ r.date && r.date ≤ z + 2)) z = some rs ∧
      findRec (ds.filter (fun r => z - 80 ≤ r.date && r.date ≤ z + 2)) (z + 1) = some re ∧
      findRec (ds.filter (fun r => z - 80 ≤ r.date && r.date ≤ z + 2)) (z + 2) = some re2 ∧
      runs =
        [{ day := dayOfYear z,
           fm := meanFlux (ds.filter (fun r => z - 80 ≤ r.date && r.date ≤ z + 2))
                  (fun d => z - 80 ≤ d && d ≤ z),
           fl := rp.F107obs, alt := alt,
           akp1 := [rp.Kp8, rs.Kp1, rs.Kp2, rs.Kp3, rs.Kp4, rs.Kp5, rs.Kp6, rs.Kp7],
           akp3 := nearestKp rp.Ap, ap := rp.Ap },
         { day := dayOfYear (z + 1),
           fm := meanFlux (ds.filter (fun r => z - 80 ≤ r.date && r.date ≤ z + 2))
                  (fun d => z - 80 < d && d ≤ z + 1),
           fl := rs.F107obs, alt := alt,
           akp1 := [rs.Kp8, re.Kp1, re.Kp2, re.Kp3, re.Kp4, re.Kp5, re.Kp6, re.Kp7],
           akp3 := nearestKp rs.Ap, ap := rs.Ap },
         { day := dayOfYear (z + 2),
           fm := meanFlux (ds.filter (fun r => z - 80 ≤ r.date && r.date ≤ z + 2))
                  (fun d => z - 79 < d && d ≤ z + 2),
           fl := re.F107obs, alt := alt,
           akp1 := [re.Kp8, re2.Kp1, re2.Kp2, re2.Kp3, re2.Kp4, re2.Kp5, re2.Kp6, re2.Kp7],
           akp3 := nearestKp re.Ap, ap := re.Ap }] := by
  unfold deriveRuns at h
  simp only [] at h
  split at h <;> try exact Except.noConfusion h
  rename_i rp hp
  split at h <;> try exact Except.noConfusion h
  rename_i rs hs
  split at h <;> try exact Except.noConfusion h
  rename_i re he
  split at h <;> try exact Except.noConfusion h
  rename_i re2 he2
  refine ⟨rp, rs, re, re2, hp, hs, he, he2, ?_⟩
  cases h
  rfl

/-- Restricting the dataset first by a date predicate and then taking
flux values under another predicate is taking flux values under the
conjunction. -/
lemma fluxValues_filter (w p : ℤ → Bool) :
    ∀ ds : List IndexRecord,
      fluxValues (ds.filter (fun r => w r.date)) p = fluxValues ds (fun d => w d && p d) := by
  intro ds
  induction ds with
  | nil => rfl
  | cons r t ih =>
    simp only [fluxValues] at ih ⊢
    cases hw : w r.date <;> cases hp : p r.date <;>
      simp [List.filter_cons, List.filterMap_cons, hw, hp, ih] <;>
      cases hf : r.F107obs <;> simp [hf, ih]

/-- Mean over a pre-filtered window equals mean over the whole dataset
under the combined window predicate. -/
lemma meanFlux_window (ds : List IndexRecord) (w p q : ℤ → Bool)
    (h : ∀ d, (w d && p d) = q d) :
    meanFlux (ds.filter (fun r => w r.date)) p = meanFlux ds q := by
  unfold meanFlux
  rw [fluxValues_filter]
  have : (fun d => w d && p d) = q := funext h
  rw [this]

/-- Witness for C3 at concrete inputs: `Ap = 1` is equidistant between
keys 0 and 2 and maps to the lower key's value 0; `Ap = 13` is closer
to key 12 and maps to 2.66. -/
theorem ap_to_kp_nearest_mapping_w :
    nearestKp 1 = 0 ∧ nearestKp 13 = 2.66 := by
  constructor
  · exact (ap_to_kp_nearest_mapping.2 ((0, 0), (2, 0.33)) (by with_unfolding_all decide) 1
      (by decide) (by decide)).2.2 (by decide)
  · exact (ap_to_kp_nearest_mapping.2 ((12, 2.66), (15, 3)) (by with_unfolding_all decide) 13
      (by decide) (by decide)).1 (by decide)

/-- Concrete request date 2024-01-05, as a civil day count. -/
def exZ : ℤ := daysFromCivil 2024 1 5

/-- A synthetic daily record with fixed sub-indices. -/
def exRec (d : ℤ) (f : ℚ) (ap : ℤ) : IndexRecord :=
  { date := d, Kp1 := 1, Kp2 := 2, Kp3 := 3, Kp4 := 4, Kp5 := 5, Kp6 := 6,
    Kp7 := 7, Kp8 := 8, Ap := ap, F107obs := some f }

/-- A synthetic dataset with distinct fluxes on the four days the
derivation needs. -/
def exDs : List IndexRecord :=
  [exRec (exZ - 1) 50 4, exRec exZ 100 7, exRec (exZ + 1) 150 15, exRec (exZ + 2) 200 27]

/-- The run templates the code derives from `exDs` at date `exZ`. -/
def exRuns : List Run := (deriveRuns exDs exZ 300).toOption.getD []

set_option maxHeartbeats 4000000 in
/-- C1 counterexample: on a concrete dataset whose flux at the request
date `exZ` is 100 and at `exZ - 1` is 50, the derived run for
day-offset 0 carries `fl = 50` — the PREVIOUS day's observation — not
the requested date's own observation 100; likewise `akp3` is the
mapping of the previous day's `Ap` (4 → 1), not of the request date's
`Ap` (7 → 2). -/
theorem fl_akp3_at_reference_date_cex :
    exRuns.map Run.fl = [some 50, some 100, some 150] ∧
    (findRec exDs exZ).bind IndexRecord.F107obs = some 100 ∧
    (exRuns.headD default).fl ≠ some 100 ∧
    (exRuns.headD default).akp3 = 1 ∧
    (findRec exDs exZ).map (fun r => nearestKp r.Ap) = some 2 ∧
    (1 : ℚ) ≠ 2 := by
  refine ⟨?_, ?_, ?_, ?_, ?_, ?_⟩ <;> with_unfolding_all decide

/-- C1 amended: for every day-offset `k ∈ {0,1,2}`, the run for offset
`k` takes `fl` from the F10.7obs observation of the day BEFORE the
reference date `R = date + k`, and `akp3` from the nearest-mapped `Ap`
of that same previous day `R - 1`. -/
theorem fl_akp3_from_previous_day (ds : List IndexRecord) (z alt : ℤ) (runs : List Run)
    (h : deriveRuns ds z alt = .ok runs) :
    ∀ k : ℕ, k < 3 →
      ∃ r, findRec (ds.filter (fun t => z - 80 ≤ t.date && t.date ≤ z + 2)) (z + k - 1) = some r ∧
        (runs[k]?).map Run.fl = some r.F107obs ∧
        (runs[k]?).map Run.akp3 = some (nearestKp r.Ap) := by
  obtain ⟨rp, rs, re, re2, h1, h2, h3, h4, rfl⟩ := deriveRuns_shape ds z alt runs h
  intro k hk
  interval_cases k
  · refine ⟨rp, ?_, by simp, by simp⟩
    convert h1 using 2
    omega
  · refine ⟨rs, ?_, by simp, by simp⟩
    convert h2 using 2
    omega
  · refine ⟨re, ?_, by simp, by simp⟩
    convert h3 using 2
    omega

/-- Witness for the amended C1 at the synthetic dataset, offset 0. -/
theorem fl_akp3_from_previous_day_w :
    ∃ r, findRec (exDs.filter (fun t => exZ - 80 ≤ t.date && t.date ≤ exZ + 2))
          (exZ + (0 : ℕ) - 1) = some r ∧
      (exRuns[(0 : ℕ)]?).map Run.fl = some r.F107obs ∧
      (exRuns[(0 : ℕ)]?).map Run.akp3 = some (nearestKp r.Ap) :=
  fl_akp3_from_previous_day exDs exZ 300 exRuns (by with_unfolding_all rfl) 0 (by decide)

/-- C2: for every day-offset `k ∈ {0,1,2}`, the mean flux `fm` of the
run for offset `k` is the mean of F10.7obs over the 81 consecutive
days `[date - 80 + k, date + k]` (both endpoints inclusive), missing
observations omitted, NaN (`none`) when no value is present. -/
theorem fm_mean_81_day_window (ds : List IndexRecord) (z alt : ℤ) (runs : List Run)
    (h : deriveRuns ds z alt = .ok runs) :
    runs.map Run.fm =
      [meanFlux ds (fun d => z - 80 ≤ d && d ≤ z),
       meanFlux ds (fun d => z - 79 ≤ d && d ≤ z + 1),
       meanFlux ds (fun d => z - 78 ≤ d && d ≤ z + 2)] := by
  obtain ⟨rp, rs, re, re2, _, _, _, _, rfl⟩ := deriveRuns_shape ds z alt runs h
  simp only [List.map_cons, List.map_nil]
  rw [meanFlux_window ds (fun d => decide (z - 80 ≤ d) && decide (d ≤ z + 2))
        (fun d => decide (z - 80 ≤ d) && decide (d ≤ z))
        (fun d => decide (z - 80 ≤ d) && decide (d ≤ z))
        (fun d => by
          by_cases h1 : z - 80 ≤ d <;> by_cases h2 : d ≤ z + 2 <;> by_cases h3 : d ≤ z <;>
            simp [h1, h2, h3] <;> omega),
      meanFlux_window ds (fun d => decide (z - 80 ≤ d) && decide (d ≤ z + 2))
        (fun d => decide (z - 80 < d) && decide (d ≤ z + 1))
        (fun d => decide (z - 79 ≤ d) && decide (d ≤ z + 1))
        (fun d => by
          by_cases h1 : z - 80 < d <;> by_cases h2 : d ≤ z + 2 <;> by_cases h3 : d ≤ z + 1 <;>
            by_cases h4 : z - 79 ≤ d <;> simp [h1, h2, h3, h4] <;> omega),
      meanFlux_window ds (fun d => decide (z - 80 ≤ d) && decide (d ≤ z + 2))
        (fun d => decide (z - 79 < d) && decide (d ≤ z + 2))
        (fun d => decide (z - 78 ≤ d) && decide (d ≤ z + 2))
        (fun d => by
          by_cases h1 : z - 79 < d <;> by_cases h2 : d ≤ z + 2 <;> by_cases h3 : z - 80 ≤ d <;>
            by_cases h4 : z - 78 ≤ d <;> simp [h1, h2, h3, h4] <;> omega)]

/-- Witness for C2 at the synthetic dataset: the three windows contain
the records with fluxes {50, 100}, {50, 100, 150}, {50, 100, 150, 200}
and their means are 75, 100, 125. -/
theorem fm_mean_81_day_window_w :
    exRuns.map Run.fm =
      [meanFlux exDs (fun d => exZ - 80 ≤ d && d ≤ exZ),
       meanFlux exDs (fun d => exZ - 79 ≤ d && d ≤ exZ + 1),
       meanFlux exDs (fun d => exZ - 78 ≤ d && d ≤ exZ + 2)] :=
  fm_mean_81_day_window exDs exZ 300 exRuns (by with_unfolding_all rfl)

/-- C4: every derived day-template's `akp1` has length exactly 8, its
element 0 is the 8th sub-index `Kp8` of the previous calendar day
`R - 1`, and its elements 1..7 are `Kp1..Kp7` of the reference day
`R = date + k`. -/
theorem akp1_length_and_sources (ds : List IndexRecord) (z alt : ℤ) (runs : List Run)
    (h : deriveRuns ds z alt = .ok runs) :
    runs.length = 3 ∧
    ∀ k : ℕ, k < 3 →
      ∃ rp rc,
        findRec (ds.filter (fun t => z - 80 ≤ t.date && t.date ≤ z + 2)) (z + k - 1) = some rp ∧
        findRec (ds.filter (fun t => z - 80 ≤ t.date && t.date ≤ z + 2)) (z + k) = some rc ∧
        (runs[k]?).map Run.akp1 =
          some [rp.Kp8, rc.Kp1, rc.Kp2, rc.Kp3, rc.Kp4, rc.Kp5, rc.Kp6, rc.Kp7] ∧
        (runs[k]?).map (fun r => r.akp1.length) = some 8 := by
  obtain ⟨rp, rs, re, re2, h1, h2, h3, h4, rfl⟩ := deriveRuns_shape ds z alt runs h
  refine ⟨rfl, ?_⟩
  intro k hk
  interval_cases k
  · refine ⟨rp, rs, ?_, ?_, by simp, by simp⟩ <;> [convert h1 using 2; convert h2 using 2] <;> omega
  · refine ⟨rs, re, ?_, ?_, by simp, by simp⟩ <;> [convert h2 using 2; convert h3 using 2] <;> omega
  · refine ⟨re, re2, ?_, ?_, by simp, by simp⟩ <;> [convert h3 using 2; convert h4 using 2] <;> omega

/-- Witness for C4 at the synthetic dataset, offset 1. -/
theorem akp1_length_and_sources_w :
    ((deriveRuns exDs exZ 300).toOption.getD []).length = 3 ∧
    (∃ rp rc,
      findRec (exDs.filter (fun t => exZ - 80 ≤ t.date && t.date ≤ exZ + 2))
        (exZ + (1 : ℕ) - 1) = some rp ∧
      findRec (exDs.filter (fun t => exZ - 80 ≤ t.date && t.date ≤ exZ + 2))
        (exZ + (1 : ℕ)) = some rc ∧
      (exRuns[(1 : ℕ)]?).map Run.akp1 =
        some [rp.Kp8, rc.Kp1, rc.Kp2, rc.Kp3, rc.Kp4, rc.Kp5, rc.Kp6, rc.Kp7] ∧
      (exRuns[(1 : ℕ)]?).map (fun r => r.akp1.length) = some 8) :=
  ⟨(akp1_length_and_sources exDs exZ 300 exRuns (by with_unfolding_all rfl)).1,
   (akp1_length_and_sources exDs exZ 300 exRuns (by with_unfolding_all rfl)).2 1 (by decide)⟩

/-- C5: a successful derivation dispatches exactly `8 * 3 = 24` runs,
ordered by day-offset ascending (calendar day ascending) and then by
epoch ascending; the `n`-th dispatch produces the `n`-th execution
handle, keyed `"{day_of_year}_{hour}"` with `hour = 3 * epoch` ranging
over `0, 3, …, 21` within each day. -/
theorem dispatch_count_order_keys (ds : List IndexRecord) (z alt : ℤ) (runs : List Run)
    (execId : ℕ → ℕ) (h : deriveRuns ds z alt = .ok runs) :
    dispatchRuns execId runs =
      (List.range 3).flatMap (fun k => (List.range 8).map (fun e =>
        (toString (dayOfYear (z + k)) ++ "_" ++ toString (3 * e), execId (8 * k + e)))) ∧
    (dispatchRuns execId runs).length = 24 := by
  obtain ⟨rp, rs, re, re2, _, _, _, _, rfl⟩ := deriveRuns_shape ds z alt runs h
  constructor
  · simp only [dispatchRuns, keysOfRun, List.flatMap_cons, List.flatMap_nil,
      List.length_cons, List.length_nil, show (List.range 3) = [0, 1, 2] from rfl,
      show (List.range 8) = [0, 1, 2, 3, 4, 5, 6, 7] from rfl, List.map_cons, List.map_nil,
      List.append_nil, List.cons_append, List.nil_append, dispatchGo]
    norm_num
  · simp [dispatchRuns, keysOfRun, dispatchGo]

/-- Witness for C5 at the synthetic dataset with identity execution
ids. -/
theorem dispatch_count_order_keys_w :
    dispatchRuns (fun i => i) exRuns =
      (List.range 3).flatMap (fun k => (List.range 8).map (fun e =>
        (toString (dayOfYear (exZ + k)) ++ "_" ++ toString (3 * e), 8 * k + e))) ∧
    (dispatchRuns (fun i => i) exRuns).length = 24 :=
  dispatch_count_order_keys exDs exZ 300 exRuns (fun i => i) (by with_unfolding_all rfl)

/-- Skipping `n` characters is processing the `n`-dropped input. -/
lemma replaceGo_skip (p r : List Char) :
    ∀ (inp : List Char) (n : ℕ), replaceGo p r n inp = replaceGo p r 0 (inp.drop n) := by
  intro inp
  induction inp with
  | nil => intro n; simp [replaceGo]
  | cons c cs ih =>
    intro n
    cases n with
    | zero => rfl
    | succ m => simpa [replaceGo] using ih m

/-- When the pattern occurs nowhere in the input, `replaceL` is the
identity. -/
lemma replaceL_no_occ (p r : List Char) :
    ∀ inp : List Char, (∀ i, i ≤ inp.length → p.isPrefixOf (inp.drop i) = false) →
      replaceL p r inp = inp := by
  intro inp
  induction inp with
  | nil => intro _; rfl
  | cons c cs ih =>
    intro h
    show replaceGo p r 0 (c :: cs) = c :: cs
    rw [show replaceGo p r 0 (c :: cs) =
          if p ≠ [] ∧ p.isPrefixOf (c :: cs) then r ++ replaceGo p r (p.length - 1) cs
          else c :: replaceGo p r 0 cs from rfl, if_neg]
    · exact congrArg (c :: ·) (ih fun i hi => by simpa using h (i + 1) (by simp only [List.length_cons]; omega))
    · rintro ⟨-, hpre⟩
      have h0 := h 0 (by omega)
      simp only [List.drop_zero] at h0
      simp [h0] at hpre

/-- Replacing a pattern that occurs exactly once, at the head. -/
lemma replaceL_head (p r rest : List Char) (hp : p ≠ [])
    (hno : ∀ i, i ≤ rest.length → p.isPrefixOf (rest.drop i) = false) :
    replaceL p r (p ++ rest) = r ++ rest := by
  obtain ⟨a, as, rfl⟩ := List.exists_cons_of_ne_nil hp
  show replaceGo (a :: as) r 0 ((a :: as) ++ rest) = r ++ rest
  rw [List.cons_append,
      show replaceGo (a :: as) r 0 (a :: (as ++ rest)) =
        if (a :: as) ≠ [] ∧ (a :: as).isPrefixOf (a :: (as ++ rest))
        then r ++ replaceGo (a :: as) r ((a :: as).length - 1) (as ++ rest)
        else a :: replaceGo (a :: as) r 0 (as ++ rest) from rfl,
      if_pos ⟨by simp, by
        rw [List.isPrefixOf_iff_prefix, ← List.cons_append]
        exact List.prefix_append (a :: as) rest⟩,
      replaceGo_skip, show (a :: as).length - 1 = as.length from by simp,
      List.drop_left]
  exact congrArg (r ++ ·) (replaceL_no_occ _ _ _ hno)

/-- Gluing a string onto a character list. -/
lemma mk_append (a : String) (l : List Char) : String.mk (a.data ++ l) = a ++ String.mk l := by
  cases a
  rfl

/-- A string is the pack of its characters. -/
lemma mk_data (s : String) : String.mk s.data = s := by
  cases s
  rfl

/-- `filename.replace('DTM20F107Kp', key)` on a filename that starts
with the model prefix and continues with a suffix not containing it. -/
lemma pyReplace_key (key sfx : String)
    (hno : ∀ i, i ≤ sfx.data.length →
      (("DTM20F107Kp" : String).data.isPrefixOf (sfx.data.drop i)) = false) :
    pyReplace (String.mk (("DTM20F107Kp" : String).data ++ sfx.data)) "DTM20F107Kp" key =
      key ++ sfx := by
  unfold pyReplace
  rw [show (String.mk (("DTM20F107Kp" : String).data ++ sfx.data)).data =
        ("DTM20F107Kp" : String).data ++ sfx.data from rfl,
      replaceL_head _ _ _ (by decide) hno, mk_append, mk_data]

/-- C7: for every quantity tag `q` and any run key, assembling the two
standard extracted filenames `DTM20F107Kp_<q>.datx` / `.png` produces
exactly one copy each: the data file goes only to `datas_<q>` and the
plot only to `plots_<q>` (no cross-quantity leakage), with the fixed
model prefix renamed to the run key in the destination filename. -/
theorem assembly_routes_by_quantity (key : String) :
    ∀ q ∈ folderMetrics,
      copyActions folderMetrics ["DTM20F107Kp_" ++ q ++ ".datx"] key =
        [("DTM20F107Kp_" ++ q ++ ".datx", "datas_" ++ q, key ++ "_" ++ q ++ ".datx")] ∧
      copyActions folderMetrics ["DTM20F107Kp_" ++ q ++ ".png"] key =
        [("DTM20F107Kp_" ++ q ++ ".png", "plots_" ++ q, key ++ "_" ++ q ++ ".png")] := by
  intro q hq
  fin_cases hq
  · constructor
    · have h1 : copyActions folderMetrics ["DTM20F107Kp_" ++ "He" ++ ".datx"] key =
          [("DTM20F107Kp_He.datx", "datas_He",
            pyReplace (String.mk (("DTM20F107Kp" : String).data ++ ("_He.datx" : String).data))
              "DTM20F107Kp" key)] := rfl
      rw [h1, pyReplace_key key "_He.datx" (by decide)]
      simp only [String.append_assoc]
      rfl
    · have h1 : copyActions folderMetrics ["DTM20F107Kp_" ++ "He" ++ ".png"] key =
          [("DTM20F107Kp_He.png", "plots_He",
            pyReplace (String.mk (("DTM20F107Kp" : String).data ++ ("_He.png" : String).data))
              "DTM20F107Kp" key)] := rfl
      rw [h1, pyReplace_key key "_He.png" (by decide)]
      simp only [String.append_assoc]
      rfl
  · constructor
    · have h1 : copyActions folderMetrics ["DTM20F107Kp_" ++ "N2" ++ ".datx"] key =
          [("DTM20F107Kp_N2.datx", "datas_N2",
            pyReplace (String.mk (("DTM20F107Kp" : String).data ++ ("_N2.datx" : String).data))
              "DTM20F107Kp" key)] := rfl
      rw [h1, pyReplace_key key "_N2.datx" (by decide)]
      simp only [String.append_assoc]
      rfl
    · have h1 : copyActions folderMetrics ["DTM20F107Kp_" ++ "N2" ++ ".png"] key =
          [("DTM20F107Kp_N2.png", "plots_N2",
            pyReplace (String.mk (("DTM20F107Kp" : String).data ++ ("_N2.png" : String).data))
              "DTM20F107Kp" key)] := rfl
      rw [h1, pyReplace_key key "_N2.png" (by decide)]
      simp only [String.append_assoc]
      rfl
  · constructor
    · have h1 : copyActions folderMetrics ["DTM20F107Kp_" ++ "O" ++ ".datx"] key =
          [("DTM20F107Kp_O.datx", "datas_O",
            pyReplace (String.mk (("DTM20F107Kp" : String).data ++ ("_O.datx" : String).data))
              "DTM20F107Kp" key)] := rfl
      rw [h1, pyReplace_key key "_O.datx" (by decide)]
      simp only [String.append_assoc]
      rfl
    · have h1 : copyActions folderMetrics ["DTM20F107Kp_" ++ "O" ++ ".png"] key =
          [("DTM20F107Kp_O.png", "plots_O",
            pyReplace (String.mk (("DTM20F107Kp" : String).data ++ ("_O.png" : String).data))
              "DTM20F107Kp" key)] := rfl
      rw [h1, pyReplace_key key "_O.png" (by decide)]
      simp only [String.append_assoc]
      rfl
  · constructor
    · have h1 : copyActions folderMetrics ["DTM20F107Kp_" ++ "ro" ++ ".datx"] key =
          [("DTM20F107Kp_ro.datx", "datas_ro",
            pyReplace (String.mk (("DTM20F107Kp" : String).data ++ ("_ro.datx" : String).data))
              "DTM20F107Kp" key)] := rfl
      rw [h1, pyReplace_key key "_ro.datx" (by decide)]
      simp only [String.append_assoc]
      rfl
    · have h1 : copyActions folderMetrics ["DTM20F107Kp_" ++ "ro" ++ ".png"] key =
          [("DTM20F107Kp_ro.png", "plots_ro",
            pyReplace (String.mk (("DTM20F107Kp" : String).data ++ ("_ro.png" : String).data))
              "DTM20F107Kp" key)] := rfl
      rw [h1, pyReplace_key key "_ro.png" (by decide)]
      simp only [String.append_assoc]
      rfl
  · constructor
    · have h1 : copyActions folderMetrics ["DTM20F107Kp_" ++ "Tinf" ++ ".datx"] key =
          [("DTM20F107Kp_Tinf.datx", "datas_Tinf",
            pyReplace (String.mk (("DTM20F107Kp" : String).data ++ ("_Tinf.datx" : String).data))
              "DTM20F107Kp" key)] := rfl
      rw [h1, pyReplace_key key "_Tinf.datx" (by decide)]
      simp only [String.append_assoc]
      rfl
    · have h1 : copyActions folderMetrics ["DTM20F107Kp_" ++ "Tinf" ++ ".png"] key =
          [("DTM20F107Kp_Tinf.png", "plots_Tinf",
            pyReplace (String.mk (("DTM20F107Kp" : String).data ++ ("_Tinf.png" : String).data))
              "DTM20F107Kp" key)] := rfl
      rw [h1, pyReplace_key key "_Tinf.png" (by decide)]
      simp only [String.append_assoc]
      rfl
  · constructor
    · have h1 : copyActions folderMetrics ["DTM20F107Kp_" ++ "Tz" ++ ".datx"] key =
          [("DTM20F107Kp_Tz.datx", "datas_Tz",
            pyReplace (String.mk (("DTM20F107Kp" : String).data ++ ("_Tz.datx" : String).data))
              "DTM20F107Kp" key)] := rfl
      rw [h1, pyReplace_key key "_Tz.datx" (by decide)]
      simp only [String.append_assoc]
      rfl
    · have h1 : copyActions folderMetrics ["DTM20F107Kp_" ++ "Tz" ++ ".png"] key =
          [("DTM20F107Kp_Tz.png", "plots_Tz",
            pyReplace (String.mk (("DTM20F107Kp" : String).data ++ ("_Tz.png" : String).data))
              "DTM20F107Kp" key)] := rfl
      rw [h1, pyReplace_key key "_Tz.png" (by decide)]
      simp only [String.append_assoc]
      rfl

/-- Witness for C7: the quantity `ro` with run key `5_0`. -/
theorem assembly_routes_by_quantity_w :
    copyActions folderMetrics ["DTM20F107Kp_" ++ "ro" ++ ".datx"] "5_0" =
      [("DTM20F107Kp_" ++ "ro" ++ ".datx", "datas_" ++ "ro", "5_0" ++ "_" ++ "ro" ++ ".datx")] ∧
    copyActions folderMetrics ["DTM20F107Kp_" ++ "ro" ++ ".png"] "5_0" =
      [("DTM20F107Kp_" ++ "ro" ++ ".png", "plots_" ++ "ro", "5_0" ++ "_" ++ "ro" ++ ".png")] :=
  assembly_routes_by_quantity "5_0" "ro" (by decide)


/-- C8: validation rejects, with a client error raised before any
pipeline work (the state is returned untouched), every request whose
altitude is outside `[120, 1500]` (the framework's 422), whose date
string does not parse as a calendar date, or whose parsed date lies
outside `[1970-01-01, now − 3 days]` (both 400); every request
satisfying all three conditions passes validation. -/
theorem request_validation (now : ℚ) (date : String) (alt : ℤ) :
    ((alt < 120 ∨ 1500 < alt) →
      validateRequest now date alt =
        .error (422,
          "Input should be greater than or equal to 120 and less than or equal to 1500")) ∧
    (120 ≤ alt → alt ≤ 1500 → parseDate date = none →
      validateRequest now date alt =
        .error (400, "Invalid date format. Ensure the format is YYYY-MM-DD.")) ∧
    (∀ y m d, 120 ≤ alt → alt ≤ 1500 → parseDate date = some (y, m, d) →
      ((daysFromCivil y m d : ℚ) > now - 3 ∨ (daysFromCivil y m d : ℚ) < 0) →
      validateRequest now date alt =
        .error (400, "The date should be from 1970-01-01 to 3 days ago.")) ∧
    (∀ y m d, 120 ≤ alt → alt ≤ 1500 → parseDate date = some (y, m, d) →
      ¬(daysFromCivil y m d : ℚ) > now - 3 → ¬(daysFromCivil y m d : ℚ) < 0 →
      validateRequest now date alt = .ok (daysFromCivil y m d)) ∧
    (∀ (env : Env) (st : St) (e : ℕ × String), env.now = now →
      validateRequest now date alt = .error e →
      run_workflow env date alt st = (st, .httpError e.1 e.2)) := by
  refine ⟨?_, ?_, ?_, ?_, ?_⟩
  · intro h
    unfold validateRequest
    rw [if_pos (by omega)]
  · intro h1 h2 hp
    unfold validateRequest
    rw [if_neg (fun hc => hc ⟨h1, h2⟩), hp]
  · intro y m d h1 h2 hp hr
    unfold validateRequest
    rw [if_neg (fun hc => hc ⟨h1, h2⟩), hp]
    simp only []
    rw [if_pos hr]
  · intro y m d h1 h2 hp hr1 hr2
    unfold validateRequest
    rw [if_neg (fun hc => hc ⟨h1, h2⟩), hp]
    simp only []
    rw [if_neg (by rintro (h | h) <;> [exact hr1 h; exact hr2 h])]
  · intro env st e he hv
    unfold run_workflow
    rw [he, hv]

/-- A minimal environment for exercising validation. -/
def exEnv0 : Env :=
  { root := "/app/api", now := 20000, dataset := [], execId := fun _ => 0,
    resultZip := fun _ => "", unzip := fun _ => [], zipDir := fun _ => "" }

/-- An empty starting state. -/
def exSt0 : St := { fs := { files := [], dirs := [] }, remoteCalls := 0 }

/-- Witness for C8: month 13 fails parsing; altitude 1501 fails the
bound; 2024-01-05 fails the range when "now" is 2024-01-07 (the date
exceeds now − 3 days); 2024-01-05 passes when "now" is far later; and
a validation failure returns the workflow state untouched. -/
theorem request_validation_w :
    validateRequest 20000 "2024-13-01" 300 =
      .error (400, "Invalid date format. Ensure the format is YYYY-MM-DD.") ∧
    validateRequest 20000 "2024-01-05" 1501 =
      .error (422,
        "Input should be greater than or equal to 120 and less than or equal to 1500") ∧
    validateRequest 19729 "2024-01-05" 300 =
      .error (400, "The date should be from 1970-01-01 to 3 days ago.") ∧
    validateRequest 20000 "2024-01-05" 300 = .ok (daysFromCivil 2024 1 5) ∧
    run_workflow exEnv0 "2024-13-01" 300 exSt0 =
      (exSt0, .httpError 400 "Invalid date format. Ensure the format is YYYY-MM-DD.") := by
  have hparse : parseDate "2024-13-01" = none := by with_unfolding_all decide
  have hfmt := (request_validation 20000 "2024-13-01" 300).2.1 (by decide) (by decide) hparse
  refine ⟨hfmt, ?_, ?_, ?_, ?_⟩
  · exact (request_validation 20000 "2024-01-05" 1501).1 (by decide)
  · exact (request_validation 19729 "2024-01-05" 300).2.2.1 2024 1 5 (by decide) (by decide)
      (by with_unfolding_all decide) (Or.inl (by with_unfolding_all decide))
  · exact (request_validation 20000 "2024-01-05" 300).2.2.2.1 2024 1 5 (by decide) (by decide)
      (by with_unfolding_all decide) (by with_unfolding_all decide) (by with_unfolding_all decide)
  · exact (request_validation 20000 "2024-13-01" 300).2.2.2.2 exEnv0 exSt0
      (400, "Invalid date format. Ensure the format is YYYY-MM-DD.") rfl hfmt

/-- Looking up a path right after writing it yields the written
content. -/
lemma FS.lookup_write_self (fs : FS) (p v : String) : (fs.write p v).lookup p = some v := by
  unfold FS.lookup FS.write
  simp only [List.filter_append]
  have h1 : List.filter (fun e => decide (e.1 = p))
      (List.filter (fun e => decide ¬(e.1 = p)) fs.files) = [] := by
    rw [List.filter_eq_nil_iff]
    intro e he
    have := (List.mem_filter.mp he).2
    simp_all
  rw [h1]
  simp

/-- C6: the workflow is idempotent in `(date, altitude)`.  First, on a
valid request whose final archive already exists, the invocation
short-circuits: it returns the cached bytes with the state — including
the remote-call counter — completely untouched, so no dataset fetch or
remote call happens.  Second, whenever an invocation returns a file, an
immediately repeated invocation returns byte-identical content and
leaves the state untouched (zero additional remote calls). -/
theorem workflow_idempotent (env : Env) (date : String) (alt : ℤ) (st : St) :
    (∀ z c, validateRequest env.now date alt = .ok z →
      st.fs.lookup (outputFolder env.root date alt ++ "/final_output.zip") = some c →
      run_workflow env date alt st = (st, .file c)) ∧
    (∀ st₁ b, run_workflow env date alt st = (st₁, .file b) →
      run_workflow env date alt st₁ = (st₁, .file b)) := by
  constructor
  · intro z c hv hl
    unfold run_workflow
    rw [hv]
    simp only []
    rw [hl]
  · intro st₁ b h
    unfold run_workflow at h ⊢
    cases hv : validateRequest env.now date alt with
    | error e =>
      rw [hv] at h
      dsimp only at h
      rw [Prod.mk.injEq] at h
      exact absurd h.2 (by simp)
    | ok z =>
      rw [hv] at h
      dsimp only at h ⊢
      cases hl : FS.lookup st.fs (outputFolder env.root date alt ++ "/final_output.zip") with
      | some c =>
        rw [hl] at h
        rw [Prod.mk.injEq, Resp.file.injEq] at h
        obtain ⟨rfl, rfl⟩ := h
        rw [hl]
      | none =>
        rw [hl] at h
        cases hd : deriveRuns env.dataset z alt with
        | error e =>
          rw [hd] at h
          rw [Prod.mk.injEq] at h
          exact absurd h.2 (by simp)
        | ok runs =>
          rw [hd] at h
          rw [Prod.mk.injEq, Resp.file.injEq] at h
          obtain ⟨hst, rfl⟩ := h
          rw [← hst]
          dsimp only
          rw [FS.lookup_write_self]

/-- A concrete full environment: the synthetic dataset, identity
execution ids, and fixed archive bytes. -/
def exEnv : Env :=
  { root := "", now := 20000, dataset := exDs, execId := fun i => i,
    resultZip := fun _ => "RZ",
    unzip := fun _ => [("DTM20F107Kp_ro.datx", "D"), ("DTM20F107Kp_ro.png", "P")],
    zipDir := fun _ => "FINALZIP" }

/-- The state left by a first full invocation on the empty start
state. -/
def exSt1 : St := (run_workflow exEnv "2024-01-05" 300 exSt0).1

set_option maxHeartbeats 16000000 in
/-- Witness for C6: after a concrete first invocation produced the
archive, the repeated invocation returns the same bytes and leaves the
state untouched; and the cache-hit branch returns the cached bytes
directly. -/
theorem workflow_idempotent_w :
    run_workflow exEnv "2024-01-05" 300 exSt1 = (exSt1, .file "FINALZIP") :=
  (workflow_idempotent exEnv "2024-01-05" 300 exSt0).2 exSt1 "FINALZIP"
    (by with_unfolding_all rfl)

/-- Looking up a different path is unaffected by a write. -/
lemma FS.lookup_write_of_ne (fs : FS) (p q v : String) (hne : p ≠ q) :
    (fs.write q v).lookup p = fs.lookup p := by
  unfold FS.lookup FS.write
  simp only [List.filter_append]
  have h2 : List.filter (fun e => decide (e.1 = p)) [(q, v)] = [] := by
    simp
    exact fun h => hne h.symm
  rw [h2, List.append_nil]
  have h1 : ∀ l : List (String × String),
      List.filter (fun e => decide (e.1 = p)) (List.filter (fun e => decide ¬(e.1 = q)) l) =
      List.filter (fun e => decide (e.1 = p)) l := by
    intro l
    rw [List.filter_filter]
    refine List.filter_congr fun a _ => ?_
    by_cases hp : a.1 = p
    · simp [hp, hne]
    · simp [hp]
  rw [h1]

/-- Files below a directory are unaffected by writing a path that is
not below it. -/
lemma filesUnder_write_not_under (fs : FS) (dir q v : String)
    (hq : underDir dir q = false) :
    filesUnder (fs.write q v) dir = filesUnder fs dir := by
  unfold filesUnder FS.write
  simp only [List.filter_append]
  have h2 : List.filter (fun e => underDir dir e.1) [(q, v)] = [] := by simp [hq]
  rw [h2, List.append_nil]
  have h1 : ∀ l : List (String × String),
      List.filter (fun e => underDir dir e.1) (List.filter (fun e => decide ¬(e.1 = q)) l) =
      List.filter (fun e => underDir dir e.1) l := by
    intro l
    rw [List.filter_filter]
    refine List.filter_congr fun a _ => ?_
    by_cases ha : a.1 = q
    · simp [ha, hq]
    · simp [ha]
  rw [h1]

/-- A freshly written file below a directory is among the files below
that directory. -/
lemma mem_filesUnder_write_self (fs : FS) (dir p v : String) (hu : underDir dir p = true) :
    (p, v) ∈ filesUnder (fs.write p v) dir := by
  unfold filesUnder FS.write
  rw [List.filter_append]
  refine List.mem_append_right _ ?_
  simp [hu]

set_option maxHeartbeats 1000000 in
/-- C9 (code-bug evidence): on every successful cache-miss run, the
pipeline writes the full parameter manifest — date, altitude, and every
run's parameter record — as the single file `final/inputs_runs.json`,
and that file is among exactly the final-directory files the final
archive is built over (so it is written before the archive is
created); but the bytes written are the Python `str(dict)` rendering,
which opens with a single-quoted key and always differs from the JSON
rendering of the same manifest, so the `.json` file is not
machine-parseable JSON. -/
theorem manifest_written_but_python_repr (env : Env) (date : String) (alt : ℤ)
    (st st₁ : St) (b : String) (z : ℤ) (runs : List Run)
    (hv : validateRequest env.now date alt = .ok z)
    (hmiss : FS.lookup st.fs (outputFolder env.root date alt ++ "/final_output.zip") = none)
    (hd : deriveRuns env.dataset z alt = .ok runs)
    (h : run_workflow env date alt st = (st₁, .file b)) :
    FS.lookup st₁.fs (outputFolder env.root date alt ++ "/final" ++ "/inputs_runs.json") =
      some (pyManifest date alt runs) ∧
    (outputFolder env.root date alt ++ "/final" ++ "/inputs_runs.json",
        pyManifest date alt runs) ∈
      filesUnder st₁.fs (outputFolder env.root date alt ++ "/final") ∧
    b = env.zipDir (filesUnder st₁.fs (outputFolder env.root date alt ++ "/final")) ∧
    (pyManifest date alt runs).data.take 2 = ['{', '\''] ∧
    (jsonManifest date alt runs).data.take 2 = ['{', '"'] ∧
    pyManifest date alt runs ≠ jsonManifest date alt runs := by
  have hdata_mp : (outputFolder env.root date alt ++ "/final" ++ "/inputs_runs.json").data =
      (outputFolder env.root date alt).data ++ "/final/inputs_runs.json".data := by
    rw [String.data_append, String.data_append, List.append_assoc]
    rfl
  have hdata_fz : (outputFolder env.root date alt ++ "/final_output.zip").data =
      (outputFolder env.root date alt).data ++ "/final_output.zip".data := by
    rw [String.data_append]
  have hne_mp_fz : outputFolder env.root date alt ++ "/final" ++ "/inputs_runs.json" ≠
      outputFolder env.root date alt ++ "/final_output.zip" := by
    intro he
    have hd2 := congrArg String.data he
    rw [hdata_mp, hdata_fz] at hd2
    exact absurd (List.append_cancel_left hd2) (by decide)
  have hnu_fz : underDir (outputFolder env.root date alt ++ "/final")
      (outputFolder env.root date alt ++ "/final_output.zip") = false := by
    unfold underDir
    rw [Bool.eq_false_iff]
    intro hpre
    rw [List.isPrefixOf_iff_prefix,
      show ((outputFolder env.root date alt ++ "/final") ++ "/").data =
          (outputFolder env.root date alt).data ++ "/final/".data from by
        rw [String.data_append, String.data_append, List.append_assoc]
        rfl,
      hdata_fz, List.prefix_append_right_inj] at hpre
    exact absurd hpre (by decide)
  have hu_mp : underDir (outputFolder env.root date alt ++ "/final")
      (outputFolder env.root date alt ++ "/final" ++ "/inputs_runs.json") = true := by
    unfold underDir
    rw [List.isPrefixOf_iff_prefix]
    refine ⟨"inputs_runs.json".data, ?_⟩
    simp only [String.data_append]
    rw [List.append_assoc]
    rfl
  unfold run_workflow at h
  rw [hv] at h
  dsimp only at h
  rw [hmiss, hd] at h
  dsimp only at h
  rw [Prod.mk.injEq, Resp.file.injEq] at h
  obtain ⟨hst, rfl⟩ := h
  have h46 : (pyManifest date alt runs).data.take 2 = ['{', '\''] := rfl
  have h56 : (jsonManifest date alt runs).data.take 2 = ['{', '"'] := rfl
  refine ⟨?_, ?_, ?_, h46, h56, fun he => ?_⟩
  · rw [← hst]
    dsimp only
    rw [FS.lookup_write_of_ne _ _ _ _ hne_mp_fz, FS.lookup_write_self]
  · rw [← hst]
    dsimp only
    rw [filesUnder_write_not_under _ _ _ _ hnu_fz]
    exact mem_filesUnder_write_self _ _ _ _ hu_mp
  · rw [← hst]
    dsimp only
    rw [filesUnder_write_not_under _ _ _ _ hnu_fz]
  · rw [he, h56] at h46
    exact absurd h46 (by decide)

/-- Witness for C9 at the concrete environment: the hypotheses of the
manifest theorem hold for the synthetic first invocation. -/
theorem manifest_written_but_python_repr_w :
    FS.lookup exSt1.fs (outputFolder "" "2024-01-05" 300 ++ "/final" ++ "/inputs_runs.json") =
      some (pyManifest "2024-01-05" 300 exRuns) ∧
    (outputFolder "" "2024-01-05" 300 ++ "/final" ++ "/inputs_runs.json",
        pyManifest "2024-01-05" 300 exRuns) ∈
      filesUnder exSt1.fs (outputFolder "" "2024-01-05" 300 ++ "/final") ∧
    "FINALZIP" = exEnv.zipDir (filesUnder exSt1.fs (outputFolder "" "2024-01-05" 300 ++ "/final")) ∧
    (pyManifest "2024-01-05" 300 exRuns).data.take 2 = ['{', '\''] ∧
    (jsonManifest "2024-01-05" 300 exRuns).data.take 2 = ['{', '"'] ∧
    pyManifest "2024-01-05" 300 exRuns ≠ jsonManifest "2024-01-05" 300 exRuns :=
  manifest_written_but_python_repr exEnv "2024-01-05" 300 exSt0 exSt1 "FINALZIP"
    (daysFromCivil 2024 1 5) exRuns (by with_unfolding_all rfl) rfl
    (by with_unfolding_all rfl) (by with_unfolding_all rfl)

/-! ### Frame reasoning for stale final-directory contents -/

/-- Directory sets that agree everywhere except possibly at `x`. -/
def dirsEquiv (x : String) (d₁ d₂ : List String) : Prop :=
  ∀ p : String, p ≠ x → d₁.contains p = d₂.contains p

/-- Filesystems with identical files whose directories agree except
possibly at `x`. -/
def FSR (x : String) (f₁ f₂ : FS) : Prop :=
  f₁.files = f₂.files ∧ dirsEquiv x f₁.dirs f₂.dirs

/-- States with `FSR`-related filesystems and equal remote-call
counters. -/
def StR (x : String) (s₁ s₂ : St) : Prop :=
  FSR x s₁.fs s₂.fs ∧ s₁.remoteCalls = s₂.remoteCalls

lemma FSR.write_congr {x : String} {a b : FS} (h : FSR x a b) (p v : String) :
    FSR x (a.write p v) (b.write p v) := by
  obtain ⟨hf, hd⟩ := h
  exact ⟨by unfold FS.write; rw [hf], hd⟩

lemma FSR.lookup_congr {x : String} {a b : FS} (h : FSR x a b) (p : String) :
    a.lookup p = b.lookup p := by
  unfold FS.lookup
  rw [h.1]

lemma FSR.listdir_congr {x : String} {a b : FS} (h : FSR x a b) (d : String) :
    a.listdir d = b.listdir d := by
  unfold FS.listdir
  rw [h.1]

lemma FSR.filesUnder_congr {x : String} {a b : FS} (h : FSR x a b) (d : String) :
    filesUnder a d = filesUnder b d := by
  unfold filesUnder
  rw [h.1]

lemma FSR.existsP_congr {x : String} {a b : FS} (h : FSR x a b) (p : String) (hp : p ≠ x) :
    a.existsP p = b.existsP p := by
  unfold FS.existsP
  rw [FSR.lookup_congr h, h.2 p hp]

lemma files_mkdir (fs : FS) (p : String) : (fs.mkdir p).files = fs.files := by
  unfold FS.mkdir
  split <;> rfl

lemma contains_mkdir (fs : FS) (p q : String) (hq : q ≠ p) :
    (fs.mkdir p).dirs.contains q = fs.dirs.contains q := by
  unfold FS.mkdir
  split
  · rfl
  · simp [List.contains, hq]

lemma contains_mkdir_self (fs : FS) (p : String) : (fs.mkdir p).dirs.contains p = true := by
  unfold FS.mkdir
  split
  · assumption
  · simp [List.contains]

lemma FSR.mkdir_congr {x : String} {a b : FS} (h : FSR x a b) (p : String) :
    FSR x (a.mkdir p) (b.mkdir p) := by
  obtain ⟨hf, hd⟩ := h
  refine ⟨by rw [files_mkdir, files_mkdir, hf], fun q hq => ?_⟩
  by_cases hqp : q = p
  · rw [hqp, contains_mkdir_self, contains_mkdir_self]
  · rw [contains_mkdir _ _ _ hqp, contains_mkdir _ _ _ hqp]
    exact hd q hq

/-- A fold whose step preserves `FSR` preserves `FSR`. -/
lemma foldl_congr_FSR {α : Type} (x : String) (g : FS → α → FS)
    (hg : ∀ (a b : FS) (i : α), FSR x a b → FSR x (g a i) (g b i)) :
    ∀ (l : List α) (a b : FS), FSR x a b → FSR x (l.foldl g a) (l.foldl g b) := by
  intro l
  induction l with
  | nil => exact fun a b h => h
  | cons i t ih => exact fun a b h => ih _ _ (hg _ _ _ h)

/-- Two strings with a common prefix and different remaining character
lists are different. -/
lemma append_data_ne (a : String) (l₁ l₂ : List Char) (h : l₁ ≠ l₂) :
    String.mk (a.data ++ l₁) ≠ String.mk (a.data ++ l₂) := fun he =>
  h (List.append_cancel_left (congrArg String.data he))

lemma ne_append_right (a s : String) (hs : 0 < s.length) : a ≠ a ++ s := by
  intro h
  have := congrArg String.length h
  rw [String.length_append] at this
  omega

lemma append2_ne_left (a s t : String) (hs : 0 < s.length) : (a ++ s) ++ t ≠ a := by
  intro h
  have := congrArg String.length h
  rw [String.length_append, String.length_append] at this
  omega

/-- The per-run zip path never collides with the final folder. -/
lemma zip_ne_final (outF key : String) : outF ++ "/" ++ key ++ ".zip" ≠ outF ++ "/final" := by
  intro h
  have hd := congrArg (fun s : String => s.data.getLast?) h
  simp only [String.data_append] at hd
  rw [List.getLast?_append_of_ne_nil _ (by decide),
    List.getLast?_append_of_ne_nil _ (by decide)] at hd
  exact absurd hd (by decide)

/-- A key directory collides with the final folder only for the key
`"final"` itself. -/
lemma keyDir_ne_final (outF key : String) (hk : key ≠ "final") :
    outF ++ "/" ++ key ≠ outF ++ "/final" := by
  intro h
  apply hk
  have hd := congrArg String.data h
  rw [String.data_append, String.data_append, String.data_append, List.append_assoc] at hd
  have h2 := List.append_cancel_left hd
  have h3 : key.data = ("final" : String).data := by
    have h4 : ('/' :: key.data : List Char) = '/' :: ("final" : String).data := h2
    exact (List.cons.injEq _ _ _ _).mp h4 |>.2
  have := congrArg String.mk h3
  rwa [mk_data, mk_data] at this

/-- The final archive path is not the final folder. -/
lemma fz_ne_final (outF : String) : outF ++ "/final_output.zip" ≠ outF ++ "/final" := by
  intro h
  have hd := congrArg String.data h
  rw [String.data_append, String.data_append] at hd
  exact absurd (List.append_cancel_left hd) (by decide)

/-- The final archive path is not below the final folder. -/
lemma fz_not_under_final (outF : String) :
    underDir (outF ++ "/final") (outF ++ "/final_output.zip") = false := by
  unfold underDir
  rw [Bool.eq_false_iff]
  intro hpre
  rw [List.isPrefixOf_iff_prefix,
    show ((outF ++ "/final") ++ "/").data = outF.data ++ "/final/".data from by
      rw [String.data_append, String.data_append, List.append_assoc]
      rfl,
    String.data_append, List.prefix_append_right_inj] at hpre
  exact absurd hpre (by decide)

/-- Every dispatched handle key contains an underscore, hence differs
from `"final"`. -/
lemma dispatch_key_ne_final (execId : ℕ → ℕ) (runs : List Run) :
    ∀ h ∈ dispatchRuns execId runs, h.1 ≠ "final" := by
  have hmem : ∀ (n : ℕ) (ks : List String) (h : String × ℕ),
      h ∈ dispatchGo execId n ks → h.1 ∈ ks := by
    intro n ks
    induction ks generalizing n with
    | nil => intro h hh; cases hh
    | cons k t ih =>
      intro h hh
      rcases List.mem_cons.mp hh with h1 | h2
      · rw [h1]
        exact List.mem_cons_self _ _
      · exact List.mem_cons_of_mem _ (ih _ _ h2)
  intro h hh heq
  have h1 : h.1 ∈ runs.flatMap keysOfRun := hmem _ _ _ hh
  obtain ⟨run, -, hk⟩ := List.mem_flatMap.mp h1
  obtain ⟨e, -, hke⟩ := List.mem_map.mp hk
  have h2 : ('_' : Char) ∈ h.1.data := by
    rw [← hke, String.data_append, String.data_append]
    exact List.mem_append_left _ (List.mem_append_right _ (by decide))
  rw [heq] at h2
  exact absurd h2 (by decide)

/-- After `rm -rf dir`, no file remains below `dir`. -/
lemma filesUnder_rmRf (fs : FS) (dir : String) : filesUnder (fs.rmRf dir) dir = [] := by
  unfold filesUnder FS.rmRf
  rw [List.filter_filter, List.filter_eq_nil_iff]
  intro a ha
  by_cases hu : underDir dir a.1 <;> simp [hu]

/-- After `rm -rf dir`, the directory entry itself is gone. -/
lemma existsP_rmRf_self (fs : FS) (dir : String) : (fs.rmRf dir).existsP dir = false := by
  unfold FS.existsP FS.rmRf FS.lookup
  simp only [Bool.or_eq_false_iff]
  constructor
  · rw [List.filter_filter]
    have h1 : List.filter
        (fun a => decide (a.1 = dir) && decide ¬(decide (a.1 = dir) || underDir dir a.1) = true)
        fs.files = [] := by
      rw [List.filter_eq_nil_iff]
      intro a ha
      by_cases h : a.1 = dir <;> simp [h]
    rw [h1]
    rfl
  · rw [Bool.eq_false_iff]
    intro hc
    have hm := List.mem_filter.mp ((List.elem_iff).mp hc)
    simp at hm

/-- Lookups of paths neither at nor below `dir` survive `rm -rf dir`. -/
lemma lookup_rmRf_of_ne (fs : FS) (dir p : String) (hp : p ≠ dir)
    (hu : underDir dir p = false) : (fs.rmRf dir).lookup p = fs.lookup p := by
  unfold FS.lookup FS.rmRf
  simp only []
  rw [List.filter_filter]
  refine congrArg (fun l => (List.head? l).map Prod.snd) (List.filter_congr fun a _ => ?_)
  by_cases h : a.1 = p
  · rw [h]
    simp [hp, hu]
  · simp [h]

/-- The two cleanups — on a state whose final folder exists, and on
that state with everything at or below the final folder erased —
produce `FSR`-related filesystems. -/
lemma cleanup_relation (fs : FS) (finalF : String) (hex : fs.existsP finalF = true) :
    FSR finalF (cleanupFinal fs finalF) (cleanupFinal (fs.rmRf finalF) finalF) := by
  unfold cleanupFinal
  rw [if_pos hex, existsP_rmRf_self]
  simp only [Bool.false_eq_true, if_false]
  exact ⟨(files_mkdir _ _).symm, fun q hq => (contains_mkdir _ _ _ hq).symm⟩

/-- Collecting one handle preserves the frame relation: its filesystem
queries are at the per-run zip path and key directory, never at the
protected path `x`. -/
lemma collectOne_congr (env : Env) (outF x : String) (k : String × ℕ)
    (hzip : outF ++ "/" ++ k.1 ++ ".zip" ≠ x) (hkey : outF ++ "/" ++ k.1 ≠ x)
    (s₁ s₂ : St) (h : StR x s₁ s₂) :
    StR x (collectOne env outF s₁ k) (collectOne env outF s₂ k) := by
  obtain ⟨hfs, hc⟩ := h
  unfold collectOne
  dsimp only
  have hAB : FSR x (s₁.fs.mkdir outF) (s₂.fs.mkdir outF) := FSR.mkdir_congr hfs outF
  rw [FSR.existsP_congr hAB _ hzip, hc]
  cases hE : (s₂.fs.mkdir outF).existsP (outF ++ "/" ++ k.1 ++ ".zip") with
  | true =>
    simp only [eq_self_iff_true, if_true]
    rw [FSR.existsP_congr hAB _ hkey]
    cases hE2 : (s₂.fs.mkdir outF).existsP (outF ++ "/" ++ k.1) with
    | true =>
      simp only [eq_self_iff_true, if_true]
      exact ⟨hAB, rfl⟩
    | false =>
      simp only [Bool.false_eq_true, if_false]
      refine ⟨?_, rfl⟩
      rw [FSR.lookup_congr hAB]
      exact foldl_congr_FSR x
        (fun a' e => a'.write (outF ++ "/" ++ k.1 ++ "/" ++ e.1) e.2)
        (fun a' b' e h' => FSR.write_congr h' _ _)
        (env.unzip (((s₂.fs.mkdir outF).lookup (outF ++ "/" ++ k.1 ++ ".zip")).getD ""))
        _ _ (FSR.mkdir_congr hAB _)
  | false =>
    simp only [Bool.false_eq_true, if_false]
    have hW : FSR x ((s₁.fs.mkdir outF).write (outF ++ "/" ++ k.1 ++ ".zip") (env.resultZip k.2))
        ((s₂.fs.mkdir outF).write (outF ++ "/" ++ k.1 ++ ".zip") (env.resultZip k.2)) :=
      FSR.write_congr hAB _ _
    rw [FSR.existsP_congr hW _ hkey]
    cases hE2 : ((s₂.fs.mkdir outF).write (outF ++ "/" ++ k.1 ++ ".zip")
        (env.resultZip k.2)).existsP (outF ++ "/" ++ k.1) with
    | true =>
      simp only [eq_self_iff_true, if_true]
      exact ⟨hW, rfl⟩
    | false =>
      simp only [Bool.false_eq_true, if_false]
      refine ⟨?_, rfl⟩
      rw [FSR.lookup_congr hW]
      exact foldl_congr_FSR x
        (fun a' e => a'.write (outF ++ "/" ++ k.1 ++ "/" ++ e.1) e.2)
        (fun a' b' e h' => FSR.write_congr h' _ _)
        (env.unzip ((((s₂.fs.mkdir outF).write (outF ++ "/" ++ k.1 ++ ".zip")
          (env.resultZip k.2)).lookup (outF ++ "/" ++ k.1 ++ ".zip")).getD ""))
        _ _ (FSR.mkdir_congr hW _)

/-- Collecting a list of handles preserves the frame relation. -/
lemma foldl_collect_congr (env : Env) (outF x : String) :
    ∀ hs : List (String × ℕ),
      (∀ k ∈ hs, (outF ++ "/" ++ k.1 ++ ".zip" ≠ x) ∧ (outF ++ "/" ++ k.1 ≠ x)) →
      ∀ s₁ s₂, StR x s₁ s₂ →
        StR x (hs.foldl (collectOne env outF) s₁) (hs.foldl (collectOne env outF) s₂) := by
  intro hs
  induction hs with
  | nil => exact fun _ s₁ s₂ h => h
  | cons k t ih =>
    intro hk s₁ s₂ h
    exact ih (fun j hj => hk j (List.mem_cons_of_mem _ hj)) _ _
      (collectOne_congr env outF x k (hk k (List.mem_cons_self _ _)).1
        (hk k (List.mem_cons_self _ _)).2 _ _ h)

/-- Assembling one run's files preserves the frame relation (it reads
and writes files only). -/
lemma assembleOne_congr (finalF outF x key : String) (a b : FS) (h : FSR x a b) :
    FSR x (assembleOne finalF outF a key) (assembleOne finalF outF b key) := by
  unfold assembleOne
  rw [FSR.listdir_congr h]
  refine foldl_congr_FSR x _ (fun a' b' act h' => ?_) _ a b h
  rw [FSR.lookup_congr h']
  exact FSR.write_congr h' _ _

/-- Creating the per-quantity folders preserves the frame relation. -/
lemma mkMetricDirs_congr (finalF x : String) (a b : FS) (h : FSR x a b) :
    FSR x (mkMetricDirs finalF a) (mkMetricDirs finalF b) := by
  unfold mkMetricDirs
  exact foldl_congr_FSR x
    (fun a' m => (a'.mkdir (finalF ++ "/plots_" ++ m)).mkdir (finalF ++ "/datas_" ++ m))
    (fun a' b' m h' => FSR.mkdir_congr (FSR.mkdir_congr h' _) _) folderMetrics a b h

/-- Assembling a list of runs preserves the frame relation. -/
lemma foldl_assemble_congr (finalF outF x : String) (hs : List (String × ℕ)) :
    ∀ a b : FS, FSR x a b →
      FSR x (hs.foldl (fun f k => assembleOne finalF outF f k.1) a)
        (hs.foldl (fun f k => assembleOne finalF outF f k.1) b) := by
  induction hs with
  | nil => exact fun a b h => h
  | cons k t ih => exact fun a b h => ih _ _ (assembleOne_congr finalF outF x k.1 a b h)

set_option maxHeartbeats 1600000 in
/-- The whole post-derivation tail of the pipeline — collection,
per-quantity folders, assembly, manifest write — preserves the frame
relation, for abstract related start states. -/
lemma pipeline_tail_congr (env : Env) (outF date : String) (alt : ℤ) (runs : List Run)
    (s₁ s₂ : St) (h : StR (outF ++ "/final") s₁ s₂) :
    FSR (outF ++ "/final")
      (((dispatchRuns env.execId runs).foldl
          (fun a k => assembleOne (outF ++ "/final") outF a k.1)
          (mkMetricDirs (outF ++ "/final")
            ((dispatchRuns env.execId runs).foldl (collectOne env outF) s₁).fs)).write
        (outF ++ "/final" ++ "/inputs_runs.json") (pyManifest date alt runs))
      (((dispatchRuns env.execId runs).foldl
          (fun a k => assembleOne (outF ++ "/final") outF a k.1)
          (mkMetricDirs (outF ++ "/final")
            ((dispatchRuns env.execId runs).foldl (collectOne env outF) s₂).fs)).write
        (outF ++ "/final" ++ "/inputs_runs.json") (pyManifest date alt runs)) := by
  have h3 := foldl_collect_congr env outF (outF ++ "/final") (dispatchRuns env.execId runs)
    (fun k hk => ⟨zip_ne_final _ _, keyDir_ne_final _ _ (dispatch_key_ne_final _ _ k hk)⟩)
    _ _ h
  have h4 := mkMetricDirs_congr (outF ++ "/final") (outF ++ "/final") _ _ h3.1
  have h5 := foldl_assemble_congr (outF ++ "/final") outF (outF ++ "/final")
    (dispatchRuns env.execId runs) _ _ h4
  exact FSR.write_congr h5 _ _

set_option maxHeartbeats 3200000 in
/-- C10: on a cache miss with a pre-existing final output folder, the
cleanup deletes every file at or below the final folder before any
run is dispatched, and leftover final-folder contents influence
neither the response nor the assembled final directory: the run on the
stale state and the run on the same state with everything at or below
the final folder erased return the same response and end with
identical final-folder contents. -/
theorem stale_final_cleanup (env : Env) (date : String) (alt : ℤ) (st : St) (z : ℤ)
    (hv : validateRequest env.now date alt = .ok z)
    (hmiss : FS.lookup st.fs (outputFolder env.root date alt ++ "/final_output.zip") = none)
    (hex : st.fs.existsP (outputFolder env.root date alt ++ "/final") = true) :
    filesUnder (cleanupFinal st.fs (outputFolder env.root date alt ++ "/final"))
      (outputFolder env.root date alt ++ "/final") = [] ∧
    (run_workflow env date alt st).2 =
      (run_workflow env date alt
        { st with fs := st.fs.rmRf (outputFolder env.root date alt ++ "/final") }).2 ∧
    filesUnder (run_workflow env date alt st).1.fs
        (outputFolder env.root date alt ++ "/final") =
      filesUnder (run_workflow env date alt
          { st with fs := st.fs.rmRf (outputFolder env.root date alt ++ "/final") }).1.fs
        (outputFolder env.root date alt ++ "/final") := by
  have hclean : filesUnder (cleanupFinal st.fs (outputFolder env.root date alt ++ "/final"))
      (outputFolder env.root date alt ++ "/final") = [] := by
    unfold cleanupFinal
    rw [if_pos hex]
    exact filesUnder_rmRf _ _
  have hmiss' : FS.lookup
      (st.fs.rmRf (outputFolder env.root date alt ++ "/final"))
      (outputFolder env.root date alt ++ "/final_output.zip") = none := by
    rw [lookup_rmRf_of_ne _ _ _ (fz_ne_final _) (fz_not_under_final _)]
    exact hmiss
  refine ⟨hclean, ?_⟩
  unfold run_workflow
  rw [hv]
  dsimp only
  rw [hmiss, hmiss']
  cases hd : deriveRuns env.dataset z alt with
  | error e =>
    dsimp only
    refine ⟨rfl, ?_⟩
    exact FSR.filesUnder_congr (cleanup_relation st.fs _ hex) _
  | ok runs =>
    dsimp only
    have hrel0 : StR (outputFolder env.root date alt ++ "/final")
        { fs := cleanupFinal st.fs (outputFolder env.root date alt ++ "/final"),
          remoteCalls := st.remoteCalls + 1 }
        { fs := cleanupFinal
            (st.fs.rmRf (outputFolder env.root date alt ++ "/final"))
            (outputFolder env.root date alt ++ "/final"),
          remoteCalls := st.remoteCalls + 1 } :=
      ⟨cleanup_relation st.fs _ hex, rfl⟩
    have hrel2 : StR (outputFolder env.root date alt ++ "/final")
        { fs := cleanupFinal st.fs (outputFolder env.root date alt ++ "/final"),
          remoteCalls := st.remoteCalls + 1 + (dispatchRuns env.execId runs).length }
        { fs := cleanupFinal
            (st.fs.rmRf (outputFolder env.root date alt ++ "/final"))
            (outputFolder env.root date alt ++ "/final"),
          remoteCalls := st.remoteCalls + 1 + (dispatchRuns env.execId runs).length } :=
      ⟨hrel0.1, rfl⟩
    have hfsr := pipeline_tail_congr env (outputFolder env.root date alt) date alt runs
      { fs := cleanupFinal st.fs (outputFolder env.root date alt ++ "/final"),
        remoteCalls := st.remoteCalls + 1 + (dispatchRuns env.execId runs).length }
      { fs := cleanupFinal
          (st.fs.rmRf (outputFolder env.root date alt ++ "/final"))
          (outputFolder env.root date alt ++ "/final"),
        remoteCalls := st.remoteCalls + 1 + (dispatchRuns env.execId runs).length }
      hrel2
    have hfu := FSR.filesUnder_congr hfsr (outputFolder env.root date alt ++ "/final")
    constructor
    · exact congrArg (fun l => Resp.file (env.zipDir l)) hfu
    · dsimp only
      rw [filesUnder_write_not_under _ _ _ _ (fz_not_under_final _),
        filesUnder_write_not_under _ _ _ _ (fz_not_under_final _)]
      exact hfu

/-- A stale state: the final folder exists and still holds a leftover
file from a previously failed invocation; no final archive exists. -/
def exStStale : St :=
  { fs := { files := [("/output/2024-01-05/300/final/plots_ro/junk.png", "OLD")],
            dirs := ["/output/2024-01-05/300/final", "/output/2024-01-05/300/final/plots_ro"] },
    remoteCalls := 0 }

/-- Witness for C10 at the concrete stale state. -/
theorem stale_final_cleanup_w :
    filesUnder (cleanupFinal exStStale.fs (outputFolder exEnv.root "2024-01-05" 300 ++ "/final"))
      (outputFolder exEnv.root "2024-01-05" 300 ++ "/final") = [] ∧
    (run_workflow exEnv "2024-01-05" 300 exStStale).2 =
      (run_workflow exEnv "2024-01-05" 300
        { exStStale with
          fs := exStStale.fs.rmRf (outputFolder exEnv.root "2024-01-05" 300 ++ "/final") }).2 ∧
    filesUnder (run_workflow exEnv "2024-01-05" 300 exStStale).1.fs
        (outputFolder exEnv.root "2024-01-05" 300 ++ "/final") =
      filesUnder (run_workflow exEnv "2024-01-05" 300
          { exStStale with
            fs := exStStale.fs.rmRf (outputFolder exEnv.root "2024-01-05" 300 ++ "/final") }).1.fs
        (outputFolder exEnv.root "2024-01-05" 300 ++ "/final") :=
  stale_final_cleanup exEnv "2024-01-05" 300 exStStale (daysFromCivil 2024 1 5)
    (by with_unfolding_all rfl) (by with_unfolding_all decide) (by with_unfolding_all decide)

end DTM
